import Mathlib

/-!
Verification development for the serde_rusqlite bridge (row decoding and
parameter encoding between the serde structured-value data model and the
five-kind SQLite storage-value model).

The definitions below are a shallow embedding of the crate's code:
`src/ser/tosql.rs` (ToSqlSerializer, the per-value param encoder),
`src/ser/blob.rs` (U8Serializer, blob sub-encoder),
`src/ser/named.rs` (NamedSliceSerializer and ColumNameSerializer),
`src/de/mod.rs` (RowValue, RowMapAccess, RowSeqAccess, RowVariantAccess,
add_field_to_error) and `src/error.rs` (Error).
Behaviour of the external collaborators (rusqlite's realization of boxed
`ToSql` values as storage values, and serde's derived/primitive visitors)
is modelled from the spec where noted in doc comments.
-/

/-- Model of an IEEE floating-point payload (f32 or f64).  The code never
performs float arithmetic: it only tests NaN-ness (NaN encodes to Null),
passes numeric values through unchanged, widens f32 to f64 (exact), and
compares against zero when decoding bool.  So a float is modelled by the
only distinctions the code can observe: NaN-ness and the exact numeric
value.  The f64-to-f32 narrowing done by serde's f32 visitor is applied by
the claims only to values obtained by widening an f32, where it is exact,
so it is modelled as the identity on the carrier. -/
inductive FloatRep where
  | nan
  | num (q : Rat)
deriving DecidableEq

/-- The 5-kind storage value (`rusqlite::types::Value`): Null, Integer
(64-bit signed), Real (f64), Text, Blob. -/
inductive Value where
  | Null
  | Integer (v : Int)
  | Real (f : FloatRep)
  | Text (s : String)
  | Blob (b : List Nat)
deriving DecidableEq

/-- The crate's error type (`src/error.rs`).  The rusqlite-originating
error is modelled by its message only. -/
inductive Error where
  | Unsupported (msg : String)
  | ValueTooLarge (msg : String)
  | Serialization (msg : String)
  | Deserialization (column : Option String) (message : String)
  | Rusqlite (msg : String)
  | ColumnNamesNotAvailable
deriving DecidableEq

/-- `Error::ser_unsupported` from `src/error.rs`. -/
def serUnsupported (typ : String) : Error :=
  .Unsupported ("Serialization is not supported from type: " ++ typ)

/-- `Error::de_unsupported` from `src/error.rs`. -/
def deUnsupported (typ : String) : Error :=
  .Unsupported ("Deserialization is not supported into type: " ++ typ)

/-- The serde structured-value data model, restricted to the shapes the
crate's serializers dispatch on (one constructor per `serialize_*`
method). -/
inductive SerdeValue where
  | boolV (b : Bool)
  | i8V (v : Int)
  | i16V (v : Int)
  | i32V (v : Int)
  | i64V (v : Int)
  | u8V (v : Nat)
  | u16V (v : Nat)
  | u32V (v : Nat)
  | u64V (v : Nat)
  | f32V (f : FloatRep)
  | f64V (f : FloatRep)
  | charV (c : Char)
  | strV (s : String)
  | bytesV (b : List Nat)
  | noneV
  | someV (v : SerdeValue)
  | unitV
  | unitStructV (name : String)
  | unitVariantV (name : String) (variant : String)
  | newtypeStructV (name : String) (v : SerdeValue)
  | newtypeVariantV (name : String) (variant : String) (v : SerdeValue)
  | seqV (elems : List SerdeValue)
  | tupleV (elems : List SerdeValue)
  | tupleStructV (name : String) (elems : List SerdeValue)
  | tupleVariantV (name : String) (variant : String) (elems : List SerdeValue)
  | mapV (entries : List (SerdeValue × SerdeValue))
  | structV (name : String) (fields : List (String × SerdeValue))
  | structVariantV (name : String) (variant : String) (fields : List (String × SerdeValue))
  | ignoredV

/-- `i64::MAX` as a natural number. -/
def i64MaxNat : Nat := 9223372036854775807

/-- `u64::MAX` as a natural number. -/
def u64Max : Nat := 18446744073709551615

/-- `U8Serializer` from `src/ser/blob.rs`: the blob sub-encoder accepting
only `u8` elements; every other shape fails with `ser_unsupported` of the
stringified type name (including the source's "type_variant" typo for
tuple variants). -/
def u8Ser : SerdeValue → Except Error Nat
  | .u8V v => .ok v
  | .boolV _ => .error (serUnsupported ("bool"))
  | .i8V _ => .error (serUnsupported ("i8"))
  | .i16V _ => .error (serUnsupported ("i16"))
  | .i32V _ => .error (serUnsupported ("i32"))
  | .i64V _ => .error (serUnsupported ("i64"))
  | .u16V _ => .error (serUnsupported ("u16"))
  | .u32V _ => .error (serUnsupported ("u32"))
  | .u64V _ => .error (serUnsupported ("u64"))
  | .f32V _ => .error (serUnsupported ("f32"))
  | .f64V _ => .error (serUnsupported ("f64"))
  | .charV _ => .error (serUnsupported ("char"))
  | .strV _ => .error (serUnsupported ("&str"))
  | .bytesV _ => .error (serUnsupported ("&[u8]"))
  | .noneV => .error (serUnsupported ("None"))
  | .someV _ => .error (serUnsupported ("Some"))
  | .unitV => .error (serUnsupported ("()"))
  | .unitStructV _ => .error (serUnsupported ("()"))
  | .unitVariantV _ _ => .error (serUnsupported ("()"))
  | .newtypeStructV _ _ => .error (serUnsupported ("newtype_struct"))
  | .newtypeVariantV _ _ _ => .error (serUnsupported ("newtype_variant"))
  | .seqV _ => .error (serUnsupported ("seq"))
  | .tupleV _ => .error (serUnsupported ("tuple"))
  | .tupleStructV _ _ => .error (serUnsupported ("tuple_struct"))
  | .tupleVariantV _ _ _ => .error (serUnsupported ("type_variant"))
  | .mapV _ => .error (serUnsupported ("map"))
  | .structV _ _ => .error (serUnsupported ("struct"))
  | .structVariantV _ _ _ => .error (serUnsupported ("struct_variant"))
  | .ignoredV => .error (serUnsupported ("ignored"))

/-- `ToSqlSerializer` from `src/ser/tosql.rs`: one structured primitive to
one bindable storage value.  The realization of the boxed `ToSql` values
as storage values is modelled from the spec (section 3 invariants and
section 4.4) and the crate docs: bool binds as Integer 1/0, integers
widen to 64-bit Integer, floats bind as Real with NaN binding as Null
(the binding layer lives in rusqlite/SQLite, outside this crate's code),
char and string bind as Text, byte slices as Blob.  `serialize_u64`
rejects values above `i64::MAX` with `ValueTooLarge`; a sequence goes
element-by-element through `U8Serializer` into a Blob; tuples, maps and
structs are rejected with `ser_unsupported`. -/
def toSqlSerialize : SerdeValue → Except Error Value
  | .boolV b => .ok (.Integer (if b then 1 else 0))
  | .i8V v => .ok (.Integer v)
  | .i16V v => .ok (.Integer v)
  | .i32V v => .ok (.Integer v)
  | .i64V v => .ok (.Integer v)
  | .u8V v => .ok (.Integer (v : Int))
  | .u16V v => .ok (.Integer (v : Int))
  | .u32V v => .ok (.Integer (v : Int))
  | .u64V v =>
    if i64MaxNat < v then
      .error (.ValueTooLarge ("Value is too large to fit into i64: " ++ toString v))
    else
      .ok (.Integer (v : Int))
  | .f64V f =>
    match f with
    | .nan => .ok .Null
    | .num q => .ok (.Real (.num q))
  | .f32V f =>
    match f with
    | .nan => .ok .Null
    | .num q => .ok (.Real (.num q))
  | .charV c => .ok (.Text (String.mk [c]))
  | .strV s => .ok (.Text s)
  | .bytesV b => .ok (.Blob b)
  | .noneV => .ok .Null
  | .someV v => toSqlSerialize v
  | .unitV => .ok .Null
  | .unitStructV name => .ok (.Text name)
  | .unitVariantV _ variant => .ok (.Text variant)
  | .newtypeStructV _ v => toSqlSerialize v
  | .newtypeVariantV _ _ v => toSqlSerialize v
  | .seqV elems =>
    match elems.mapM u8Ser with
    | .ok buf => .ok (.Blob buf)
    | .error e => .error e
  | .tupleV _ => .error (serUnsupported ("tuple"))
  | .tupleStructV _ _ => .error (serUnsupported ("tuple_struct"))
  | .tupleVariantV _ _ _ => .error (serUnsupported ("tuple_variant"))
  | .mapV _ => .error (serUnsupported ("map"))
  | .structV _ _ => .error (serUnsupported ("struct"))
  | .structVariantV _ _ _ => .error (serUnsupported ("struct_variant"))
  | .ignoredV => .error (serUnsupported ("ignored"))

/-- The kind of payload a target enum variant carries (what the derived
`Deserialize` visitor will request from `RowVariantAccess`). -/
inductive VariantKind where
  | unitK
  | newtypeK
  | tupleK
  | structK
deriving DecidableEq

/-- The requested target shape of a single-value decode: the
`deserialize_*` entry points of `RowValue` in `src/de/mod.rs`. -/
inductive Shape where
  | boolS
  | i8S
  | i16S
  | i32S
  | i64S
  | u8S
  | u16S
  | u32S
  | u64S
  | f32S
  | f64S
  | charS
  | stringS
  | byteBufS
  | optionS (t : Shape)
  | unitS
  | unitStructS (name : String)
  | enumS (name : String) (variants : List (String × VariantKind))
  | ignoredAnyS
deriving DecidableEq

/-- Modelled from the spec: the error produced when
`deserialize_any_helper` feeds a storage value to a serde visitor that has
no handler for it (spec section 4.1 generic-any fallback; the visitors are
serde library code, outside this crate).  Null goes to `visit_none`,
Integer to `visit_i64`, Real to `visit_f64`, Text to `visit_string`, Blob
to `visit_seq`; an unhandled visit produces an unannotated
Deserialization error. -/
def anyFallbackErr (expected : String) : Value → Error
  | .Null => .Deserialization none ("invalid type: Option value, expected " ++ expected)
  | .Integer _ => .Deserialization none ("invalid type: integer, expected " ++ expected)
  | .Real _ => .Deserialization none ("invalid type: floating point, expected " ++ expected)
  | .Text _ => .Deserialization none ("invalid type: string, expected " ++ expected)
  | .Blob _ => .Deserialization none ("invalid type: sequence, expected " ++ expected)

/-- IEEE comparison `val != 0.` used by `deserialize_bool`: NaN compares
unequal to zero. -/
def floatNe0 : FloatRep → Bool
  | .nan => true
  | .num q => q != 0

/-- `RowValue::deserialize_bool`: Integer and Real coerce by comparison
with zero; everything else falls to the generic-any fallback. -/
def deBool : Value → Except Error SerdeValue
  | .Integer v => .ok (.boolV (v != 0))
  | .Real f => .ok (.boolV (floatNe0 f))
  | v => .error (anyFallbackErr ("bool") v)

/-- Modelled from the spec: a fixed-width signed-integer target reaches
the generic-any fallback (`visit_i64`), where serde's primitive visitor
range-checks the 64-bit value (spec section 4.1, consumer-side numeric
widening). -/
def deInt (lo hi : Int) (mk : Int → SerdeValue) (expected : String) : Value → Except Error SerdeValue
  | .Integer v =>
    if lo ≤ v ∧ v ≤ hi then .ok (mk v)
    else .error (.Deserialization none ("out of range integer, expected " ++ expected))
  | v => .error (anyFallbackErr expected v)

/-- An `i64` target accepts any stored Integer unchanged (generic-any
`visit_i64`). -/
def deI64 : Value → Except Error SerdeValue
  | .Integer v => .ok (.i64V v)
  | v => .error (anyFallbackErr ("i64") v)

/-- Modelled from the spec: a fixed-width unsigned-integer target
range-checks the 64-bit value through serde's primitive visitor. -/
def deUInt (hi : Nat) (mk : Nat → SerdeValue) (expected : String) : Value → Except Error SerdeValue
  | .Integer v =>
    if 0 ≤ v ∧ v ≤ (hi : Int) then .ok (mk v.toNat)
    else .error (.Deserialization none ("out of range integer, expected " ++ expected))
  | v => .error (anyFallbackErr expected v)

/-- A `u64` target accepts any non-negative stored Integer (every
non-negative i64 fits in u64). -/
def deU64 : Value → Except Error SerdeValue
  | .Integer v =>
    if 0 ≤ v then .ok (.u64V v.toNat)
    else .error (.Deserialization none ("out of range integer, expected u64"))
  | v => .error (anyFallbackErr ("u64") v)

/-- `RowValue::deserialize_f64`: Null decodes to NaN (not an error); an
Integer widens through `visit_i64` (modelled exactly; the claims only
exercise it on Real), a Real passes through; Text and Blob fail. -/
def deF64 : Value → Except Error SerdeValue
  | .Null => .ok (.f64V .nan)
  | .Integer v => .ok (.f64V (.num (v : Rat)))
  | .Real f => .ok (.f64V f)
  | v => .error (anyFallbackErr ("f64") v)

/-- `RowValue::deserialize_f32`: as `deserialize_f64`; the narrowing cast
in serde's f32 visitor is modelled as the identity on the carrier (see
`FloatRep`). -/
def deF32 : Value → Except Error SerdeValue
  | .Null => .ok (.f32V .nan)
  | .Integer v => .ok (.f32V (.num (v : Rat)))
  | .Real f => .ok (.f32V f)
  | v => .error (anyFallbackErr ("f32") v)

/-- Modelled from the spec: a char target reaches the generic-any fallback
and serde's char visitor accepts exactly a one-character string. -/
def deChar : Value → Except Error SerdeValue
  | .Text s =>
    match s.data with
    | [c] => .ok (.charV c)
    | _ => .error (.Deserialization none ("invalid value: string, expected a character"))
  | v => .error (anyFallbackErr ("char") v)

/-- A string target takes the stored Text verbatim (generic-any
`visit_string`); every other kind fails. -/
def deString : Value → Except Error SerdeValue
  | .Text s => .ok (.strV s)
  | v => .error (anyFallbackErr ("string") v)

/-- `RowValue::deserialize_byte_buf`: fetches the cell as a byte vector,
so a non-Blob cell fails inside the accessor (`FromSql`) with a
driver-originating error, passed through verbatim. -/
def deByteBuf : Value → Except Error SerdeValue
  | .Blob b => .ok (.bytesV b)
  | _ => .error (.Rusqlite ("InvalidColumnType"))

/-- `RowValue::deserialize_option`: Null decodes to absent with no error;
anything else is re-dispatched to the inner shape and wrapped present. -/
def deUnit : Value → Except Error SerdeValue
  | .Null => .ok .unitV
  | v => .error (anyFallbackErr ("unit") v)

/-- `RowValue::deserialize_unit_struct`: Text equal to the struct name
decodes to unit; any other value falls to the generic-any fallback where
the unit-struct visitor rejects it. -/
def deUnitStruct (name : String) : Value → Except Error SerdeValue
  | .Text s =>
    if s = name then .ok (.unitStructV name)
    else .error (.Deserialization none ("invalid type: string, expected unit struct " ++ name))
  | v => .error (anyFallbackErr name v)

/-- `RowValue::deserialize_enum` with `RowEnumAccess` and
`RowVariantAccess`: the cell is fetched as a String (a non-Text cell fails
inside the accessor), the variant is selected by exact string match
(unknown names fail in the derived field visitor), a unit variant
succeeds with no further data, and newtype/tuple/struct variants fail
with the fixed `de_unsupported` errors. -/
def deEnum (name : String) (variants : List (String × VariantKind)) : Value → Except Error SerdeValue
  | .Text s =>
    match variants.lookup s with
    | some .unitK => .ok (.unitVariantV name s)
    | some .newtypeK => .error (deUnsupported ("newtype_variant"))
    | some .tupleK => .error (deUnsupported ("tuple_variant"))
    | some .structK => .error (deUnsupported ("struct_variant"))
    | none => .error (.Deserialization none ("unknown variant " ++ s))
  | _ => .error (.Rusqlite ("InvalidColumnType"))

/-- The single-storage-value decoder (`RowValue`'s `Deserializer` impl in
`src/de/mod.rs`), dispatching on the requested shape. -/
def valueDecode : Shape → Value → Except Error SerdeValue
  | .boolS, v => deBool v
  | .i8S, v => deInt (-128) 127 .i8V ("i8") v
  | .i16S, v => deInt (-32768) 32767 .i16V ("i16") v
  | .i32S, v => deInt (-2147483648) 2147483647 .i32V ("i32") v
  | .i64S, v => deI64 v
  | .u8S, v => deUInt 255 .u8V ("u8") v
  | .u16S, v => deUInt 65535 .u16V ("u16") v
  | .u32S, v => deUInt 4294967295 .u32V ("u32") v
  | .u64S, v => deU64 v
  | .f32S, v => deF32 v
  | .f64S, v => deF64 v
  | .charS, v => deChar v
  | .stringS, v => deString v
  | .byteBufS, v => deByteBuf v
  | .optionS _, .Null => .ok .noneV
  | .optionS t, v => (valueDecode t v).map .someV
  | .unitS, v => deUnit v
  | .unitStructS name, v => deUnitStruct name v
  | .enumS name variants, v => deEnum name variants v
  | .ignoredAnyS, _ => .ok .ignoredV

/-- Encode one value with the param encoder, then decode the resulting
storage value back at the requested shape (the round-trip of spec
section 8). -/
def encodeThenDecode (s : Shape) (v : SerdeValue) : Except Error SerdeValue :=
  (toSqlSerialize v).bind (valueDecode s)

/-- `ColumNameSerializer` from `src/ser/named.rs`: the string-only
sub-encoder for map keys; only char and string succeed. -/
def colNameSerialize : SerdeValue → Except Error String
  | .charV c => .ok (String.mk [c])
  | .strV s => .ok s
  | .boolV _ => .error (serUnsupported ("bool"))
  | .i8V _ => .error (serUnsupported ("i8"))
  | .i16V _ => .error (serUnsupported ("i16"))
  | .i32V _ => .error (serUnsupported ("i32"))
  | .i64V _ => .error (serUnsupported ("i64"))
  | .u8V _ => .error (serUnsupported ("u8"))
  | .u16V _ => .error (serUnsupported ("u16"))
  | .u32V _ => .error (serUnsupported ("u32"))
  | .u64V _ => .error (serUnsupported ("u64"))
  | .f32V _ => .error (serUnsupported ("f32"))
  | .f64V _ => .error (serUnsupported ("f64"))
  | .bytesV _ => .error (serUnsupported ("&[u8]"))
  | .noneV => .error (serUnsupported ("None"))
  | .someV _ => .error (serUnsupported ("Some"))
  | .unitV => .error (serUnsupported ("()"))
  | .unitStructV _ => .error (serUnsupported ("unit_struct"))
  | .unitVariantV _ _ => .error (serUnsupported ("unit_variant"))
  | .newtypeStructV _ _ => .error (serUnsupported ("newtype_struct"))
  | .newtypeVariantV _ _ _ => .error (serUnsupported ("newtype_variant"))
  | .seqV _ => .error (serUnsupported ("seq"))
  | .tupleV _ => .error (serUnsupported ("tuple"))
  | .tupleStructV _ _ => .error (serUnsupported ("tuple_struct"))
  | .tupleVariantV _ _ _ => .error (serUnsupported ("type_variant"))
  | .mapV _ => .error (serUnsupported ("map"))
  | .structV _ _ => .error (serUnsupported ("struct"))
  | .structVariantV _ _ _ => .error (serUnsupported ("struct_variant"))
  | .ignoredV => .error (serUnsupported ("ignored"))

/-- `NamedSliceSerializer::add_entry` from `src/ser/named.rs`: if the
allow-list is empty or contains the key, encode the value with the param
encoder and append the ":"-prefixed entry; otherwise silently drop. -/
def add_entry (only : List String) (result : List (String × Value)) (key : String)
    (value : SerdeValue) : Except Error (List (String × Value)) :=
  if only.isEmpty || only.contains key then
    match toSqlSerialize value with
    | .ok sv => .ok (result ++ [(":" ++ key, sv)])
    | .error e => .error e
  else .ok result

/-- The `SerializeStruct` loop of `NamedSliceSerializer`: one `add_entry`
per field, in source field order, then `end` returns the accumulated
result. -/
def structSerNamed (only : List String) : List (String × SerdeValue) → List (String × Value) →
    Except Error (List (String × Value))
  | [], result => .ok result
  | (k, v) :: rest, result =>
    match add_entry only result k v with
    | .ok result2 => structSerNamed only rest result2
    | .error e => .error e

/-- The `SerializeMap` loop of `NamedSliceSerializer`: each key goes
through `ColumNameSerializer` first (before the allow-list check), then
`add_entry` runs for the value. -/
def mapSerNamed (only : List String) : List (SerdeValue × SerdeValue) → List (String × Value) →
    Except Error (List (String × Value))
  | [], result => .ok result
  | (k, v) :: rest, result =>
    match colNameSerialize k with
    | .ok name =>
      match add_entry only result name v with
      | .ok result2 => mapSerNamed only rest result2
      | .error e => .error e
    | .error e => .error e

/-- Spec-side characterization of the named builder on a struct source
(spec section 4.6): keep exactly the fields whose name is in the
allow-list, in source iteration order, encode each kept value with the
param encoder and prefix its name with ":". -/
def specNamedFilter (only : List String) : List (String × SerdeValue) →
    Except Error (List (String × Value))
  | [] => .ok []
  | (k, v) :: rest =>
    if only.contains k then
      match toSqlSerialize v with
      | .ok sv =>
        match specNamedFilter only rest with
        | .ok l => .ok ((":" ++ k, sv) :: l)
        | .error e => .error e
      | .error e => .error e
    else specNamedFilter only rest

/-- Spec-side characterization of the named builder on a map source (spec
section 4.6): every key is stringified through the string-only
sub-encoder, then non-listed keys are silently dropped and listed ones
encoded in source order with the ":" prefix. -/
def specNamedFilterMap (only : List String) : List (SerdeValue × SerdeValue) →
    Except Error (List (String × Value))
  | [] => .ok []
  | (k, v) :: rest =>
    match colNameSerialize k with
    | .ok name =>
      if only.contains name then
        match toSqlSerialize v with
        | .ok sv =>
          match specNamedFilterMap only rest with
          | .ok l => .ok ((":" ++ name, sv) :: l)
          | .error e => .error e
        | .error e => .error e
      else specNamedFilterMap only rest
    | .error e => .error e

/-- Indexed access to one storage value of a fetched row
(`rusqlite::Row::get`): an out-of-range index is the accessor's own
typed failure, wrapped verbatim as a driver error. -/
def rowGet (row : List Value) (idx : Nat) : Except Error Value :=
  match row.get? idx with
  | some v => .ok v
  | none => .error (.Rusqlite ("Invalid column index: " ++ toString idx))

/-- Decode the cell at `idx` of `row` at the requested shape (a `RowValue`
with that index, as built by the cursors in `src/de/mod.rs`). -/
def rowValueDecode (s : Shape) (row : List Value) (idx : Nat) : Except Error SerdeValue :=
  match rowGet row idx with
  | .ok v => valueDecode s v
  | .error e => .error e

/-- `add_field_to_error` from `src/de/mod.rs`: a Deserialization error
gets its column set to the given column name; other errors pass through
unchanged. -/
def add_field_to_error (e : Error) (c : String) : Error :=
  match e with
  | .Deserialization _ msg => .Deserialization (some c) msg
  | e => e

/-- Outcome of a row-decode step in the embedding: a value, a typed error,
or a Rust panic (out-of-bounds slice indexing). -/
inductive RowOutcome (α : Type) where
  | ok (a : α)
  | err (e : Error)
  | crash
deriving DecidableEq

/-- `RowSeqAccess::next_element_seed` from `src/de/mod.rs`: decode the
cell at the cursor index; on error, the closure passed to `map_err`
eagerly indexes `self.de.columns[self.idx]` — which panics when the index
is out of bounds of the column-name list — before annotating the error. -/
def nextElementSeed (row : List Value) (columns : List String) (s : Shape) (idx : Nat) :
    RowOutcome SerdeValue :=
  match rowValueDecode s row idx with
  | .ok v => .ok v
  | .error e =>
    match columns.get? idx with
    | some c => .err (add_field_to_error e c)
    | none => .crash

/-- The row-as-sequence/tuple decode driven by serde's tuple visitor: one
`next_element_seed` per requested element shape, starting at column 0;
trailing row columns beyond the requested count are never touched. -/
def seqDecode (row : List Value) (columns : List String) :
    List Shape → Nat → RowOutcome (List SerdeValue)
  | [], _ => .ok []
  | s :: rest, idx =>
    match nextElementSeed row columns s idx with
    | .ok v =>
      match seqDecode row columns rest (idx + 1) with
      | .ok vs => .ok (v :: vs)
      | .err e => .err e
      | .crash => .crash
    | .err e => .err e
    | .crash => .crash

/-- The `RowMapAccess` key/value loop of a row-as-map/struct decode driven
by a derived struct visitor (without deny-unknown-fields): for each column
name in order, a known field decodes at the field's shape, an unknown
column is consumed as ignored-any; every error raised while decoding a
value is annotated with the current column name by `add_field_to_error`.
The loop stops after the last column (`next_key_seed` returns None); the
derived visitor's end-of-map completion step is outside this model. -/
def structDecodeAux (row : List Value) (fields : List (String × Shape)) :
    List String → Nat → Except Error (List (String × SerdeValue))
  | [], _ => .ok []
  | c :: rest, idx =>
    match rowValueDecode ((fields.lookup c).getD .ignoredAnyS) row idx with
    | .error e => .error (add_field_to_error e c)
    | .ok v =>
      match structDecodeAux row fields rest (idx + 1) with
      | .error e => .error e
      | .ok kvs => .ok (if (fields.lookup c).isSome then (c, v) :: kvs else kvs)

/-- Row-as-struct decode entry point: walk the column names from index 0. -/
def structDecode (row : List Value) (columns : List String)
    (fields : List (String × Shape)) : Except Error (List (String × SerdeValue)) :=
  structDecodeAux row fields columns 0

/-- Whether a serde value is a float NaN payload (the single round-trip
exception of spec section 8). -/
def isNaNPayload : SerdeValue → Bool
  | .f64V .nan => true
  | .f32V .nan => true
  | _ => false

/-- A supported primitive shape paired with a valid value of that shape
(spec sections 4.4 and 8): fixed-width integers in range, an unsigned
64-bit value that is encodable (at most `i64::MAX`, the larger ones being
the subject of the ValueTooLarge rule), floats, bool, char, string, byte
buffer with byte-sized elements, a unit struct of the matching name, and
a unit variant of a matching unit-only target enum. -/
def validPrim : Shape → SerdeValue → Bool
  | .boolS, .boolV _ => true
  | .i8S, .i8V v => decide (-128 ≤ v ∧ v ≤ 127)
  | .i16S, .i16V v => decide (-32768 ≤ v ∧ v ≤ 32767)
  | .i32S, .i32V v => decide (-2147483648 ≤ v ∧ v ≤ 2147483647)
  | .i64S, .i64V v => decide (-9223372036854775808 ≤ v ∧ v ≤ 9223372036854775807)
  | .u8S, .u8V v => decide (v ≤ 255)
  | .u16S, .u16V v => decide (v ≤ 65535)
  | .u32S, .u32V v => decide (v ≤ 4294967295)
  | .u64S, .u64V v => decide (v ≤ i64MaxNat)
  | .f32S, .f32V _ => true
  | .f64S, .f64V _ => true
  | .charS, .charV _ => true
  | .stringS, .strV _ => true
  | .byteBufS, .bytesV b => b.all (fun x => decide (x < 256))
  | .unitStructS name, .unitStructV name2 => name2 == name
  | .enumS name variants, .unitVariantV name2 s =>
    name2 == name && variants.lookup s == some .unitK
  | _, _ => false

theorem rtBool (b : Bool) : encodeThenDecode .boolS (.boolV b) = .ok (.boolV b) := by
  cases b <;> rfl

theorem rtI8 (n : Int) (h : -128 ≤ n ∧ n ≤ 127) :
    encodeThenDecode .i8S (.i8V n) = .ok (.i8V n) := by
  show deInt (-128) 127 .i8V ("i8") (.Integer n) = .ok (.i8V n)
  simp only [deInt]
  rw [if_pos h]

theorem rtI16 (n : Int) (h : -32768 ≤ n ∧ n ≤ 32767) :
    encodeThenDecode .i16S (.i16V n) = .ok (.i16V n) := by
  show deInt (-32768) 32767 .i16V ("i16") (.Integer n) = .ok (.i16V n)
  simp only [deInt]
  rw [if_pos h]

theorem rtI32 (n : Int) (h : -2147483648 ≤ n ∧ n ≤ 2147483647) :
    encodeThenDecode .i32S (.i32V n) = .ok (.i32V n) := by
  show deInt (-2147483648) 2147483647 .i32V ("i32") (.Integer n) = .ok (.i32V n)
  simp only [deInt]
  rw [if_pos h]

theorem rtI64 (n : Int) : encodeThenDecode .i64S (.i64V n) = .ok (.i64V n) := rfl

theorem rtU8 (n : Nat) (h : n ≤ 255) :
    encodeThenDecode .u8S (.u8V n) = .ok (.u8V n) := by
  show deUInt 255 .u8V ("u8") (.Integer (n : Int)) = .ok (.u8V n)
  simp only [deUInt]
  rw [if_pos (by omega)]
  simp only [Except.ok.injEq, SerdeValue.u8V.injEq]
  omega

theorem rtU16 (n : Nat) (h : n ≤ 65535) :
    encodeThenDecode .u16S (.u16V n) = .ok (.u16V n) := by
  show deUInt 65535 .u16V ("u16") (.Integer (n : Int)) = .ok (.u16V n)
  simp only [deUInt]
  rw [if_pos (by omega)]
  simp only [Except.ok.injEq, SerdeValue.u16V.injEq]
  omega

theorem rtU32 (n : Nat) (h : n ≤ 4294967295) :
    encodeThenDecode .u32S (.u32V n) = .ok (.u32V n) := by
  show deUInt 4294967295 .u32V ("u32") (.Integer (n : Int)) = .ok (.u32V n)
  simp only [deUInt]
  rw [if_pos (by omega)]
  simp only [Except.ok.injEq, SerdeValue.u32V.injEq]
  omega

theorem rtU64 (n : Nat) (h : n ≤ i64MaxNat) :
    encodeThenDecode .u64S (.u64V n) = .ok (.u64V n) := by
  have hne : ¬ i64MaxNat < n := by omega
  simp only [encodeThenDecode, toSqlSerialize]
  rw [if_neg hne]
  show deU64 (.Integer (n : Int)) = .ok (.u64V n)
  simp only [deU64]
  rw [if_pos (by omega)]
  simp only [Except.ok.injEq, SerdeValue.u64V.injEq]
  omega

theorem rtF64 (f : FloatRep) : encodeThenDecode .f64S (.f64V f) = .ok (.f64V f) := by
  cases f <;> rfl

theorem rtF32 (f : FloatRep) : encodeThenDecode .f32S (.f32V f) = .ok (.f32V f) := by
  cases f <;> rfl

theorem rtChar (c : Char) : encodeThenDecode .charS (.charV c) = .ok (.charV c) := rfl

theorem rtString (s : String) : encodeThenDecode .stringS (.strV s) = .ok (.strV s) := rfl

theorem rtBytes (b : List Nat) : encodeThenDecode .byteBufS (.bytesV b) = .ok (.bytesV b) := rfl

theorem rtUnitStruct (name : String) :
    encodeThenDecode (.unitStructS name) (.unitStructV name) = .ok (.unitStructV name) := by
  show deUnitStruct name (.Text name) = .ok (.unitStructV name)
  simp [deUnitStruct]

theorem rtEnum (name : String) (variants : List (String × VariantKind)) (s : String)
    (h : variants.lookup s = some .unitK) :
    encodeThenDecode (.enumS name variants) (.unitVariantV name s) = .ok (.unitVariantV name s) := by
  show deEnum name variants (.Text s) = .ok (.unitVariantV name s)
  simp only [deEnum]
  rw [h]

/-- C1: for every supported primitive shape and every valid value of that
shape, encoding with the param encoder and then decoding the resulting
storage value back at the same shape returns the original value; the
single exception is float NaN, for which the decoded result is again a
NaN payload. -/
theorem claim_C1 (s : Shape) (v : SerdeValue) (h : validPrim s v = true) :
    (isNaNPayload v = false → encodeThenDecode s v = .ok v)
    ∧ (isNaNPayload v = true →
        ∃ w, encodeThenDecode s v = .ok w ∧ isNaNPayload w = true) := by
  cases s with
  | boolS =>
    cases v <;> try exact Bool.noConfusion h
    rename_i b
    exact ⟨fun _ => rtBool b, fun ht => Bool.noConfusion ht⟩
  | i8S =>
    cases v <;> try exact Bool.noConfusion h
    rename_i n
    exact ⟨fun _ => rtI8 n (of_decide_eq_true h), fun ht => Bool.noConfusion ht⟩
  | i16S =>
    cases v <;> try exact Bool.noConfusion h
    rename_i n
    exact ⟨fun _ => rtI16 n (of_decide_eq_true h), fun ht => Bool.noConfusion ht⟩
  | i32S =>
    cases v <;> try exact Bool.noConfusion h
    rename_i n
    exact ⟨fun _ => rtI32 n (of_decide_eq_true h), fun ht => Bool.noConfusion ht⟩
  | i64S =>
    cases v <;> try exact Bool.noConfusion h
    rename_i n
    exact ⟨fun _ => rtI64 n, fun ht => Bool.noConfusion ht⟩
  | u8S =>
    cases v <;> try exact Bool.noConfusion h
    rename_i n
    exact ⟨fun _ => rtU8 n (of_decide_eq_true h), fun ht => Bool.noConfusion ht⟩
  | u16S =>
    cases v <;> try exact Bool.noConfusion h
    rename_i n
    exact ⟨fun _ => rtU16 n (of_decide_eq_true h), fun ht => Bool.noConfusion ht⟩
  | u32S =>
    cases v <;> try exact Bool.noConfusion h
    rename_i n
    exact ⟨fun _ => rtU32 n (of_decide_eq_true h), fun ht => Bool.noConfusion ht⟩
  | u64S =>
    cases v <;> try exact Bool.noConfusion h
    rename_i n
    exact ⟨fun _ => rtU64 n (of_decide_eq_true h), fun ht => Bool.noConfusion ht⟩
  | f32S =>
    cases v <;> try exact Bool.noConfusion h
    rename_i f
    cases f with
    | nan => exact ⟨fun hf => Bool.noConfusion hf, fun _ => ⟨.f32V .nan, rtF32 .nan, rfl⟩⟩
    | num q => exact ⟨fun _ => rtF32 (.num q), fun ht => Bool.noConfusion ht⟩
  | f64S =>
    cases v <;> try exact Bool.noConfusion h
    rename_i f
    cases f with
    | nan => exact ⟨fun hf => Bool.noConfusion hf, fun _ => ⟨.f64V .nan, rtF64 .nan, rfl⟩⟩
    | num q => exact ⟨fun _ => rtF64 (.num q), fun ht => Bool.noConfusion ht⟩
  | charS =>
    cases v <;> try exact Bool.noConfusion h
    rename_i c
    exact ⟨fun _ => rtChar c, fun ht => Bool.noConfusion ht⟩
  | stringS =>
    cases v <;> try exact Bool.noConfusion h
    rename_i s
    exact ⟨fun _ => rtString s, fun ht => Bool.noConfusion ht⟩
  | byteBufS =>
    cases v <;> try exact Bool.noConfusion h
    rename_i b
    exact ⟨fun _ => rtBytes b, fun ht => Bool.noConfusion ht⟩
  | optionS t => cases v <;> exact Bool.noConfusion h
  | unitS => cases v <;> exact Bool.noConfusion h
  | unitStructS name =>
    cases v <;> try exact Bool.noConfusion h
    rename_i name2
    have he : name2 = name := eq_of_beq h
    subst he
    exact ⟨fun _ => rtUnitStruct name2, fun ht => Bool.noConfusion ht⟩
  | enumS name variants =>
    cases v <;> try exact Bool.noConfusion h
    rename_i name2 s
    simp only [validPrim, Bool.and_eq_true, beq_iff_eq] at h
    obtain ⟨he, hl⟩ := h
    subst he
    exact ⟨fun _ => rtEnum name2 variants s hl, fun ht => Bool.noConfusion ht⟩
  | ignoredAnyS => cases v <;> exact Bool.noConfusion h

/-- Witness for C1 at a concrete input: the signed 64-bit value 42
round-trips. -/
theorem claim_C1_witness :
    (isNaNPayload (.i64V 42) = false → encodeThenDecode .i64S (.i64V 42) = .ok (.i64V 42))
    ∧ (isNaNPayload (.i64V 42) = true →
        ∃ w, encodeThenDecode .i64S (.i64V 42) = .ok w ∧ isNaNPayload w = true) :=
  claim_C1 .i64S (.i64V 42) (by decide)

/-- C2: every f32 or f64 input encodes to a Real storage value carrying
that number, except NaN, which encodes to Null (never a Real holding
NaN). -/
theorem claim_C2 :
    (∀ q : Rat, toSqlSerialize (.f64V (.num q)) = .ok (.Real (.num q))
      ∧ toSqlSerialize (.f32V (.num q)) = .ok (.Real (.num q)))
    ∧ toSqlSerialize (.f64V .nan) = .ok .Null
    ∧ toSqlSerialize (.f32V .nan) = .ok .Null :=
  ⟨fun _ => ⟨rfl, rfl⟩, rfl, rfl⟩

/-- Witness for C2 at a concrete number. -/
theorem claim_C2_witness :
    toSqlSerialize (.f64V (.num 3)) = .ok (.Real (.num 3))
    ∧ toSqlSerialize (.f32V (.num 3)) = .ok (.Real (.num 3)) :=
  claim_C2.1 3

/-- C3: encoding an unsigned 64-bit value fails with ValueTooLarge if and
only if it exceeds `i64::MAX`; otherwise it produces exactly that Integer
and round-trips; in particular `u64::MAX` fails and `i64::MAX` as a u64
round-trips exactly. -/
theorem claim_C3 :
    (∀ v : Nat, v ≤ u64Max →
      ((∃ msg, toSqlSerialize (.u64V v) = .error (.ValueTooLarge msg)) ↔ i64MaxNat < v)
      ∧ (v ≤ i64MaxNat →
          toSqlSerialize (.u64V v) = .ok (.Integer (v : Int))
          ∧ encodeThenDecode .u64S (.u64V v) = .ok (.u64V v)))
    ∧ (∃ msg, toSqlSerialize (.u64V u64Max) = .error (.ValueTooLarge msg))
    ∧ encodeThenDecode .u64S (.u64V i64MaxNat) = .ok (.u64V i64MaxNat) := by
  refine ⟨fun v _ => ⟨⟨?_, ?_⟩, fun hle => ⟨?_, rtU64 v hle⟩⟩, ⟨?_, ?_⟩, ?_⟩
  · rintro ⟨msg, hmsg⟩
    by_contra hlt
    simp only [toSqlSerialize] at hmsg
    rw [if_neg hlt] at hmsg
    exact Except.noConfusion hmsg
  · intro hlt
    refine ⟨"Value is too large to fit into i64: " ++ toString v, ?_⟩
    simp only [toSqlSerialize]
    rw [if_pos hlt]
  · have hne : ¬ i64MaxNat < v := by omega
    simp only [toSqlSerialize]
    rw [if_neg hne]
  · exact "Value is too large to fit into i64: " ++ toString u64Max
  · rfl
  · exact rtU64 i64MaxNat (by omega)

/-- Witness for C3 at the concrete value 42. -/
theorem claim_C3_witness :
    42 ≤ u64Max
    ∧ ((∃ msg, toSqlSerialize (.u64V 42) = .error (.ValueTooLarge msg)) ↔ i64MaxNat < 42)
    ∧ (42 ≤ i64MaxNat →
        toSqlSerialize (.u64V 42) = .ok (.Integer ((42 : Nat) : Int))
        ∧ encodeThenDecode .u64S (.u64V 42) = .ok (.u64V 42)) :=
  ⟨by decide, (claim_C3.1 42 (by decide)).1, (claim_C3.1 42 (by decide)).2⟩

/-- C4: a stored Null decodes as absent for an Option target of any inner
shape (no error), and as NaN for a bare f64 or f32 target (no error). -/
theorem claim_C4 :
    (∀ t : Shape, valueDecode (.optionS t) .Null = .ok .noneV)
    ∧ valueDecode .f64S .Null = .ok (.f64V .nan)
    ∧ valueDecode .f32S .Null = .ok (.f32V .nan) :=
  ⟨fun _ => rfl, rfl, rfl⟩

/-- Witness for C4 with a concrete inner option shape. -/
theorem claim_C4_witness : valueDecode (.optionS .i64S) .Null = .ok .noneV :=
  claim_C4.1 .i64S

/-- C5: decoding an enum from stored Text selects a unit variant by exact
name match and succeeds; a variant whose derived visitor requests a
newtype, tuple or struct payload always fails with the fixed
`de_unsupported` error naming the attempted shape. -/
theorem claim_C5 (name : String) (variants : List (String × VariantKind)) (s : String) :
    (variants.lookup s = some .unitK →
      valueDecode (.enumS name variants) (.Text s) = .ok (.unitVariantV name s))
    ∧ (variants.lookup s = some .newtypeK →
      valueDecode (.enumS name variants) (.Text s) = .error (deUnsupported ("newtype_variant")))
    ∧ (variants.lookup s = some .tupleK →
      valueDecode (.enumS name variants) (.Text s) = .error (deUnsupported ("tuple_variant")))
    ∧ (variants.lookup s = some .structK →
      valueDecode (.enumS name variants) (.Text s) = .error (deUnsupported ("struct_variant"))) := by
  refine ⟨?_, ?_, ?_, ?_⟩ <;> intro hl <;> show deEnum name variants (.Text s) = _ <;>
    simp only [deEnum] <;> rw [hl]

/-- Witness for C5 on a concrete two-variant target enum. -/
theorem claim_C5_witness :
    valueDecode (.enumS "G" [("M", .unitK), ("N", .newtypeK)]) (.Text "M")
      = .ok (.unitVariantV "G" "M")
    ∧ valueDecode (.enumS "G" [("M", .unitK), ("N", .newtypeK)]) (.Text "N")
      = .error (deUnsupported ("newtype_variant")) :=
  ⟨(claim_C5 "G" [("M", .unitK), ("N", .newtypeK)] "M").1 rfl,
   (claim_C5 "G" [("M", .unitK), ("N", .newtypeK)] "N").2.1 rfl⟩

/-- C8 counterexample: the param encoder does not map a payload-less
(unit) enum variant to Null — it produces Text holding the variant
name. -/
theorem claim_C8_counterexample :
    toSqlSerialize (.unitVariantV "Gender" "M") ≠ .ok Value.Null := by
  simp [toSqlSerialize]

/-- C8 as amended: the param encoder maps an absent value and a unit
value to Null, while a payload-less (unit) enum variant maps to a Text
storage value holding the variant name. -/
theorem claim_C8_amended :
    toSqlSerialize .noneV = .ok .Null
    ∧ toSqlSerialize .unitV = .ok .Null
    ∧ ∀ name variant, toSqlSerialize (.unitVariantV name variant) = .ok (.Text variant) :=
  ⟨rfl, rfl, fun _ _ => rfl⟩

/-- Witness for the amended C8 at a concrete variant. -/
theorem claim_C8_witness : toSqlSerialize (.unitVariantV "Gender" "M") = .ok (.Text "M") :=
  claim_C8_amended.2.2 "Gender" "M"

/-- C10: encoding a bool always succeeds and produces an Integer storage
value, 1 for true and 0 for false. -/
theorem claim_C10 :
    toSqlSerialize (.boolV true) = .ok (.Integer 1)
    ∧ toSqlSerialize (.boolV false) = .ok (.Integer 0) :=
  ⟨rfl, rfl⟩

theorem structSer_eq_spec (only : List String) (ho : only.isEmpty = false) :
    ∀ (fields : List (String × SerdeValue)) (acc : List (String × Value)),
      structSerNamed only fields acc = (specNamedFilter only fields).map (fun l => acc ++ l) := by
  intro fields
  induction fields with
  | nil => intro acc; simp [structSerNamed, specNamedFilter, Except.map]
  | cons kv rest ih =>
    intro acc
    obtain ⟨k, v⟩ := kv
    simp only [structSerNamed, add_entry, ho, Bool.false_or, specNamedFilter]
    cases hc : only.contains k with
    | false =>
      simp only [hc, Bool.false_eq_true, if_false]
      exact ih acc
    | true =>
      simp only [hc, if_true]
      cases hv : toSqlSerialize v with
      | ok sv =>
        dsimp only
        rw [ih (acc ++ [(":" ++ k, sv)])]
        cases hrest : specNamedFilter only rest <;> simp [Except.map]
      | error e => simp [Except.map]

theorem mapSer_eq_spec (only : List String) (ho : only.isEmpty = false) :
    ∀ (entries : List (SerdeValue × SerdeValue)) (acc : List (String × Value)),
      mapSerNamed only entries acc = (specNamedFilterMap only entries).map (fun l => acc ++ l) := by
  intro entries
  induction entries with
  | nil => intro acc; simp [mapSerNamed, specNamedFilterMap, Except.map]
  | cons kv rest ih =>
    intro acc
    obtain ⟨k, v⟩ := kv
    simp only [mapSerNamed, add_entry, ho, Bool.false_or, specNamedFilterMap]
    cases hk : colNameSerialize k with
    | error e => simp [Except.map]
    | ok name =>
      dsimp only
      cases hc : only.contains name with
      | false =>
        simp only [hc, Bool.false_eq_true, if_false]
        exact ih acc
      | true =>
        simp only [hc, if_true]
        cases hv : toSqlSerialize v with
        | ok sv =>
          dsimp only
          rw [ih (acc ++ [(":" ++ name, sv)])]
          cases hrest : specNamedFilterMap only rest <;> simp [Except.map]
        | error e => simp [Except.map]

/-- C6: with a non-empty allow-list, the named param builder on a struct
source equals its spec-side characterization (exactly the allow-listed
fields, in source iteration order, ":"-prefixed, non-listed fields
silently dropped), and likewise on a map source with keys stringified
through the string-only sub-encoder. -/
theorem claim_C6 (only : List String) (h : only ≠ []) :
    (∀ fields, structSerNamed only fields [] = specNamedFilter only fields)
    ∧ (∀ entries, mapSerNamed only entries [] = specNamedFilterMap only entries) := by
  have ho : only.isEmpty = false := by
    cases only with
    | nil => exact absurd rfl h
    | cons a l => rfl
  constructor
  · intro fields
    rw [structSer_eq_spec only ho fields []]
    cases specNamedFilter only fields <;> simp [Except.map]
  · intro entries
    rw [mapSer_eq_spec only ho entries []]
    cases specNamedFilterMap only entries <;> simp [Except.map]

/-- The struct source of the spec's pluck example (section 8): fields
id, name, flavor, color, expiration. -/
def foodFields : List (String × SerdeValue) :=
  [("id", .i32V 15), ("name", .strV "Snickers bar"),
   ("flavor", .strV "choco and caramel"), ("color", .strV "brown"),
   ("expiration", .strV "2021-04-05")]

/-- Witness for C6: with allow-list [flavor, id], the named builder on
the five-field struct source yields exactly the 2 entries ":id" then
":flavor", in source order. -/
theorem claim_C6_witness :
    structSerNamed ["flavor", "id"] foodFields []
      = .ok [(":id", .Integer 15), (":flavor", .Text ("choco and caramel"))] :=
  ((claim_C6 ["flavor", "id"] (by simp)).1 foodFields).trans (by rfl)

/-- C7: decoding a row into a 2-element sequence ignores trailing extra
columns and succeeds on the first 2; but when the row has fewer columns
than requested, the accessor's out-of-range failure is fed to the
annotation closure, which panics indexing the column-name list instead of
returning the error. -/
theorem claim_C7 :
    seqDecode [.Integer 1, .Integer 2, .Integer 3] ["a", "b", "c"] [.i64S, .i64S] 0
      = .ok [.i64V 1, .i64V 2]
    ∧ seqDecode [.Integer 1] ["a"] [.i64S, .i64S] 0 = .crash :=
  ⟨rfl, rfl⟩

/-- Whether a decode result is free of a column-annotated Deserialization
error (used to show the origin frames never annotate). -/
def noColAnn : Except Error SerdeValue → Bool
  | .error (.Deserialization (some _) _) => false
  | _ => true

theorem valueDecode_noCol (s : Shape) : ∀ v, noColAnn (valueDecode s v) = true := by
  induction s with
  | optionS t ih =>
    intro v
    have hm : ∀ v0, noColAnn ((valueDecode t v0).map SerdeValue.someV) = true := by
      intro v0
      have h0 := ih v0
      cases hv : valueDecode t v0 with
      | ok w => rfl
      | error e => rw [hv] at h0; simpa [Except.map] using h0
    cases v with
    | Null => rfl
    | Integer i => exact hm (.Integer i)
    | Real r => exact hm (.Real r)
    | Text s => exact hm (.Text s)
    | Blob b => exact hm (.Blob b)
  | boolS =>
    intro v
    cases v <;> simp only [valueDecode, deBool, anyFallbackErr] <;> rfl
  | i8S =>
    intro v
    cases v <;> simp only [valueDecode, deInt, anyFallbackErr] <;> first | rfl | (split <;> rfl)
  | i16S =>
    intro v
    cases v <;> simp only [valueDecode, deInt, anyFallbackErr] <;> first | rfl | (split <;> rfl)
  | i32S =>
    intro v
    cases v <;> simp only [valueDecode, deInt, anyFallbackErr] <;> first | rfl | (split <;> rfl)
  | i64S =>
    intro v
    cases v <;> simp only [valueDecode, deI64, anyFallbackErr] <;> rfl
  | u8S =>
    intro v
    cases v <;> simp only [valueDecode, deUInt, anyFallbackErr] <;> first | rfl | (split <;> rfl)
  | u16S =>
    intro v
    cases v <;> simp only [valueDecode, deUInt, anyFallbackErr] <;> first | rfl | (split <;> rfl)
  | u32S =>
    intro v
    cases v <;> simp only [valueDecode, deUInt, anyFallbackErr] <;> first | rfl | (split <;> rfl)
  | u64S =>
    intro v
    cases v <;> simp only [valueDecode, deU64, anyFallbackErr] <;> first | rfl | (split <;> rfl)
  | f32S =>
    intro v
    cases v <;> simp only [valueDecode, deF32, anyFallbackErr] <;> rfl
  | f64S =>
    intro v
    cases v <;> simp only [valueDecode, deF64, anyFallbackErr] <;> rfl
  | charS =>
    intro v
    cases v <;> simp only [valueDecode, deChar, anyFallbackErr] <;> first | rfl | (split <;> rfl)
  | stringS =>
    intro v
    cases v <;> simp only [valueDecode, deString, anyFallbackErr] <;> rfl
  | byteBufS =>
    intro v
    cases v <;> simp only [valueDecode, deByteBuf] <;> rfl
  | unitS =>
    intro v
    cases v <;> simp only [valueDecode, deUnit, anyFallbackErr] <;> rfl
  | unitStructS name =>
    intro v
    cases v <;> simp only [valueDecode, deUnitStruct, anyFallbackErr] <;>
      first | rfl | (split <;> rfl)
  | enumS name variants =>
    intro v
    cases v <;> simp only [valueDecode, deEnum, anyFallbackErr] <;>
      first | rfl | (split <;> rfl)
  | ignoredAnyS =>
    intro v
    cases v <;> rfl

theorem add_field_col (e : Error) (c : String) (col : Option String) (msg : String)
    (h : add_field_to_error e c = .Deserialization col msg) : col = some c := by
  cases e with
  | Deserialization c0 m0 =>
    simp only [add_field_to_error, Error.Deserialization.injEq] at h
    exact h.1.symm
  | Unsupported m => exact Error.noConfusion h
  | ValueTooLarge m => exact Error.noConfusion h
  | Serialization m => exact Error.noConfusion h
  | Rusqlite m => exact Error.noConfusion h
  | ColumnNamesNotAvailable => exact Error.noConfusion h

theorem structDecodeAux_ann (row : List Value) (fields : List (String × Shape)) :
    ∀ (cols : List String) (idx : Nat) (col : Option String) (msg : String),
      structDecodeAux row fields cols idx = .error (.Deserialization col msg) →
      ∃ c, c ∈ cols ∧ col = some c := by
  intro cols
  induction cols with
  | nil => intro idx col msg h; simp [structDecodeAux] at h
  | cons c rest ih =>
    intro idx col msg h
    simp only [structDecodeAux] at h
    split at h
    · rename_i e heq
      injection h with he
      exact ⟨c, List.mem_cons_self c rest, add_field_col e c col msg he⟩
    · rename_i v heq
      split at h
      · rename_i e2 heq2
        injection h with he
        obtain ⟨c2, hc2, hcol⟩ := ih (idx + 1) col msg (heq2.trans (congrArg Except.error he))
        exact ⟨c2, List.mem_cons_of_mem c hc2, hcol⟩
      · exact Except.noConfusion h

theorem structDecodeAux_first_frame (row : List Value) (fields : List (String × Shape))
    (c : String) (rest : List String) (idx : Nat) (s : Shape) (msg : String)
    (hf : fields.lookup c = some s)
    (hd : rowValueDecode s row idx = .error (.Deserialization none msg)) :
    structDecodeAux row fields (c :: rest) idx = .error (.Deserialization (some c) msg) := by
  simp only [structDecodeAux, hf, Option.getD_some]
  rw [hd]
  rfl

theorem nextElementSeed_ann (row : List Value) (columns : List String) (s : Shape) (idx : Nat)
    (col : Option String) (msg : String)
    (h : nextElementSeed row columns s idx = .err (.Deserialization col msg)) :
    ∃ c, columns.get? idx = some c ∧ col = some c := by
  simp only [nextElementSeed] at h
  split at h
  · exact RowOutcome.noConfusion h
  · rename_i e heq
    split at h
    · rename_i c hc
      injection h with he
      exact ⟨c, hc, add_field_col e c col msg he⟩
    · exact RowOutcome.noConfusion h

theorem seqDecode_ann (row : List Value) (columns : List String) :
    ∀ (shapes : List Shape) (idx : Nat) (col : Option String) (msg : String),
      seqDecode row columns shapes idx = .err (.Deserialization col msg) →
      ∃ c, c ∈ columns ∧ col = some c := by
  intro shapes
  induction shapes with
  | nil => intro idx col msg h; simp [seqDecode] at h
  | cons s rest ih =>
    intro idx col msg h
    simp only [seqDecode] at h
    split at h
    · rename_i v heq
      split at h
      · exact RowOutcome.noConfusion h
      · rename_i e2 heq2
        injection h with he
        exact ih (idx + 1) col msg (heq2.trans (congrArg RowOutcome.err he))
      · exact RowOutcome.noConfusion h
    · rename_i e heq
      injection h with he
      obtain ⟨c, hc, hcol⟩ :=
        nextElementSeed_ann row columns s idx col msg (heq.trans (congrArg RowOutcome.err he))
      exact ⟨c, List.get?_mem hc, hcol⟩
    · exact RowOutcome.noConfusion h

theorem nextElementSeed_first_frame (row : List Value) (columns : List String) (s : Shape)
    (idx : Nat) (c : String) (msg : String)
    (hc : columns.get? idx = some c)
    (hd : rowValueDecode s row idx = .error (.Deserialization none msg)) :
    nextElementSeed row columns s idx = .err (.Deserialization (some c) msg) := by
  simp only [nextElementSeed]
  rw [hd, hc]
  rfl

theorem seqDecode_first_frame (row : List Value) (columns : List String) (s : Shape)
    (rest : List Shape) (idx : Nat) (c : String) (msg : String)
    (hc : columns.get? idx = some c)
    (hd : rowValueDecode s row idx = .error (.Deserialization none msg)) :
    seqDecode row columns (s :: rest) idx = .err (.Deserialization (some c) msg) := by
  simp only [seqDecode]
  rw [nextElementSeed_first_frame row columns s idx c msg hc hd]

/-- C9: every field or element decode failure that is a Deserialization
error is annotated with a column name exactly once, at the first frame
where the name is available — the single-value decoder never produces an
annotated error (so no inner frame annotates and nothing is overwritten);
on the map/struct (field) path, any annotated error leaving the loop
carries one of the row's column names and the annotation applied at the
cursor frame is exactly the failing field's column; on the
sequence/tuple (element) path, any annotated error leaving the loop
likewise carries one of the row's column names and the element cursor
frame annotates with exactly the failing index's column; and decoding a
stored string in column f_text into an integer-typed field named f_text
yields a Deserialization error whose column equals f_text. -/
theorem claim_C9 :
    (∀ (s : Shape) (v : Value) (col : Option String) (msg : String),
        valueDecode s v = .error (.Deserialization col msg) → col = none)
    ∧ (∀ (row : List Value) (fields : List (String × Shape)) (cols : List String) (idx : Nat)
        (col : Option String) (msg : String),
        structDecodeAux row fields cols idx = .error (.Deserialization col msg) →
        ∃ c, c ∈ cols ∧ col = some c)
    ∧ (∀ (row : List Value) (fields : List (String × Shape)) (c : String) (rest : List String)
        (idx : Nat) (s : Shape) (msg : String), fields.lookup c = some s →
        rowValueDecode s row idx = .error (.Deserialization none msg) →
        structDecodeAux row fields (c :: rest) idx = .error (.Deserialization (some c) msg))
    ∧ (∀ (row : List Value) (columns : List String) (shapes : List Shape) (idx : Nat)
        (col : Option String) (msg : String),
        seqDecode row columns shapes idx = .err (.Deserialization col msg) →
        ∃ c, c ∈ columns ∧ col = some c)
    ∧ (∀ (row : List Value) (columns : List String) (s : Shape) (rest : List Shape) (idx : Nat)
        (c : String) (msg : String), columns.get? idx = some c →
        rowValueDecode s row idx = .error (.Deserialization none msg) →
        seqDecode row columns (s :: rest) idx = .err (.Deserialization (some c) msg))
    ∧ structDecode [Value.Real (.num ((-653 : Rat) / 10)), Value.Text ("test")]
        ["f_real", "f_text"] [("f_real", Shape.f64S), ("f_text", Shape.i64S)]
      = .error (.Deserialization (some ("f_text")) ("invalid type: string, expected i64")) := by
  refine ⟨?_, structDecodeAux_ann, structDecodeAux_first_frame, seqDecode_ann, ?_, rfl⟩
  · intro s v col msg h
    have h0 := valueDecode_noCol s v
    rw [h] at h0
    cases col with
    | none => rfl
    | some c => exact Bool.noConfusion h0
  · exact fun row columns s rest idx c msg hc hd =>
      seqDecode_first_frame row columns s rest idx c msg hc hd

/-- Witness for C9: a one-column row whose f_text cell holds a string
errors with column f_text both when decoded as a struct with an
integer-typed field named f_text and when decoded as a one-element
sequence of integers. -/
theorem claim_C9_witness :
    structDecodeAux [Value.Text ("test")] [("f_text", Shape.i64S)] ["f_text"] 0
      = .error (.Deserialization (some ("f_text")) ("invalid type: string, expected i64"))
    ∧ seqDecode [Value.Text ("test")] ["f_text"] [Shape.i64S] 0
      = .err (.Deserialization (some ("f_text")) ("invalid type: string, expected i64")) :=
  ⟨claim_C9.2.2.1 [Value.Text ("test")] [("f_text", Shape.i64S)] "f_text" [] 0 Shape.i64S
    "invalid type: string, expected i64" rfl rfl,
   claim_C9.2.2.2.2.1 [Value.Text ("test")] ["f_text"] Shape.i64S [] 0 "f_text"
    "invalid type: string, expected i64" rfl rfl⟩
